import Mathlib

/-!
A verification development for the CVector dynamic-array library
(`src/include/vector.h`).  Each C macro/function of the public interface is
shallowly embedded as a Lean function on an explicit state record `Vec`.

Modelling conventions:
* `Vec.data` models the live region `buffer[0 .. size)` of the C buffer as a
  list; slots in `[size, capacity)` hold unspecified garbage in C and are not
  represented.  The C `size` field is kept as a separate `size` field, so a
  well-formedness hypothesis `v.size = v.data.length` accompanies theorems
  that need the buffer and the size to agree (all reachable states satisfy it).
* `magic` is the C `uint32_t` tag (`0xDEADBEEF` / `0xFEEDFACE`), kept as `Nat`.
* `realloc` outcomes are an explicit `allocOk : Bool` parameter on every
  operation that may reallocate: `true` means every `realloc` performed by the
  operation succeeds, `false` means the (single) `realloc` it attempts fails
  and the corresponding error branch of the C code is taken.  `free` never
  fails.
* Diagnostics written to `stderr` have no effect on container state and are
  not modelled.
-/

namespace CVector

/-- `#define VECTOR_MAGIC_INIT 0xDEADBEEF` -/
def MAGIC_INIT : Nat := 0xDEADBEEF

/-- `#define VECTOR_MAGIC_DESTROYED 0xFEEDFACE` -/
def MAGIC_DESTROYED : Nat := 0xFEEDFACE

/-- The vector struct produced by `VECTOR_DEFINE(type)`:
`type *data; size_t size; size_t capacity; uint32_t magic;`.
`data` models the live prefix `buffer[0..size)`. -/
structure Vec (α : Type) where
  data : List α
  size : Nat
  capacity : Nat
  magic : Nat
deriving DecidableEq

/-- `#define vector_is_valid(vec) ((vec).magic == VECTOR_MAGIC_INIT)` -/
def vector_is_valid (v : Vec α) : Bool := v.magic = MAGIC_INIT

/-- `vector_init`: warns and leaves the vector untouched when `magic` is
already `VECTOR_MAGIC_INIT`; otherwise (uninitialized garbage *or*
`VECTOR_MAGIC_DESTROYED`) resets `data/size/capacity` and stamps the magic. -/
def vector_init (v : Vec α) : Vec α :=
  if v.magic = MAGIC_INIT then v
  else { data := [], size := 0, capacity := 0, magic := MAGIC_INIT }

/-- `#define VECTOR_GROW_CAPACITY(cap) ((cap) < 4 ? 4 : (cap) << 1)`
(`cap << 1` is `cap * 2`). -/
def VECTOR_GROW_CAPACITY (cap : Nat) : Nat :=
  if cap < 4 then 4 else cap * 2

/-- `vector_push_back`: error-return when not initialized; grows via
`VECTOR_GROW_CAPACITY` when full (error-return when `realloc` fails, the
vector untouched); then writes `value` at `data[size]` and increments `size`. -/
def vector_push_back (allocOk : Bool) (v : Vec α) (value : α) : Vec α :=
  if v.magic ≠ MAGIC_INIT then v
  else if v.size ≥ v.capacity then
    if allocOk then
      { v with capacity := VECTOR_GROW_CAPACITY v.capacity,
               data := v.data ++ [value], size := v.size + 1 }
    else v
  else { v with data := v.data ++ [value], size := v.size + 1 }

/-- `vector_emplace_back` composed with `private_vector_emplace_back_ptr`:
the slot pointer is obtained exactly as in `vector_push_back` (same guard,
same growth), and on success the compound literal of `value` is written into
the slot; on failure the slot pointer is NULL and nothing is written.  The
net state change is that of `vector_push_back`. -/
def vector_emplace_back (allocOk : Bool) (v : Vec α) (value : α) : Vec α :=
  if v.magic ≠ MAGIC_INIT then v
  else if v.size ≥ v.capacity then
    if allocOk then
      { v with capacity := VECTOR_GROW_CAPACITY v.capacity,
               data := v.data ++ [value], size := v.size + 1 }
    else v
  else { v with data := v.data ++ [value], size := v.size + 1 }

/-- `vector_pop_back`: error-return when not initialized or empty; otherwise
decrements `size` (the vacated slot becomes garbage, so the live prefix
loses its last element). -/
def vector_pop_back (v : Vec α) : Vec α :=
  if v.magic ≠ MAGIC_INIT then v
  else if v.size = 0 then v
  else { v with data := v.data.dropLast, size := v.size - 1 }

/-- `vector_clear`: error-return when not initialized; otherwise sets
`size = 0` (buffer and capacity retained; the live prefix becomes empty). -/
def vector_clear (v : Vec α) : Vec α :=
  if v.magic ≠ MAGIC_INIT then v
  else { v with data := [], size := 0 }

/-- `vector_destroy`: error-return when already destroyed; error-return when
not `Active`; otherwise frees the buffer and zeroes the fields, stamping
`VECTOR_MAGIC_DESTROYED`. -/
def vector_destroy (v : Vec α) : Vec α :=
  if v.magic = MAGIC_DESTROYED then v
  else if v.magic ≠ MAGIC_INIT then v
  else { data := [], size := 0, capacity := 0, magic := MAGIC_DESTROYED }

/-- `vector_reserve`: error-return when not initialized; no-op when
`new_capacity <= capacity`; otherwise reallocates to
`max(new_capacity, 4)` slots (contents preserved); on `realloc` failure the
vector is untouched. -/
def vector_reserve (allocOk : Bool) (v : Vec α) (new_capacity : Nat) : Vec α :=
  if v.magic ≠ MAGIC_INIT then v
  else if new_capacity ≤ v.capacity then v
  else
    let aligned_capacity := if new_capacity < 4 then 4 else new_capacity
    if allocOk then { v with capacity := aligned_capacity } else v

/-- `vector_resize`: error-return when not initialized; calls
`vector_reserve` when `new_size > capacity`; then — regardless of whether the
reserve succeeded, since `vector_reserve`'s failure `break` only leaves the
reserve macro's own `do/while` — writes `def_val` into slots
`[size, new_size)` through the buffer and sets `size = new_size`.  The
written slots are recorded in `data` even when the reserve failed (in C this
writes past the allocation); truncation keeps the first `new_size` live
elements. -/
def vector_resize (allocOk : Bool) (v : Vec α) (new_size : Nat) (def_val : α) : Vec α :=
  if v.magic ≠ MAGIC_INIT then v
  else
    let v1 := if new_size > v.capacity then vector_reserve allocOk v new_size else v
    let v2 := if new_size > v1.size
      then { v1 with data := v1.data ++ List.replicate (new_size - v1.size) def_val }
      else v1
    { v2 with data := v2.data.take new_size, size := new_size }

/-- `vector_shrink_to_fit`: error-return when not initialized; no-op when
`size == capacity`; when `size == 0` frees the buffer and sets
`capacity = 0`; otherwise reallocates down to `size` slots — on `realloc`
failure nothing is changed (old buffer retained). -/
def vector_shrink_to_fit (allocOk : Bool) (v : Vec α) : Vec α :=
  if v.magic ≠ MAGIC_INIT then v
  else if v.size = v.capacity then v
  else if v.size = 0 then { v with data := [], capacity := 0 }
  else if allocOk then { v with capacity := v.size } else v

/-- `vector_insert`: error-return when not initialized or `pos > size`;
grows via `VECTOR_GROW_CAPACITY` when full (error-return on `realloc`
failure); `memmove`s `[pos, size)` one slot right, writes `value` at `pos`,
increments `size`. -/
def vector_insert (allocOk : Bool) (v : Vec α) (position : Nat) (value : α) : Vec α :=
  if v.magic ≠ MAGIC_INIT then v
  else if position > v.size then v
  else if v.size ≥ v.capacity then
    if allocOk then
      { v with capacity := VECTOR_GROW_CAPACITY v.capacity,
               data := v.data.take position ++ value :: v.data.drop position,
               size := v.size + 1 }
    else v
  else
    { v with data := v.data.take position ++ value :: v.data.drop position,
             size := v.size + 1 }

/-- `vector_insert_range`: error-return when not initialized (a NULL `arr`
also error-returns in C; Lean lists cannot be null) or `pos > size`; a
zero-count call breaks out silently; otherwise grows once to
`max(size + count, VECTOR_GROW_CAPACITY(capacity))` when needed
(error-return on `realloc` failure); `memmove`s the suffix right by `count`
and `memcpy`s the new elements into `[pos, pos + count)`. -/
def vector_insert_range (allocOk : Bool) (v : Vec α) (pos : Nat) (arr : List α) : Vec α :=
  if v.magic ≠ MAGIC_INIT then v
  else if pos > v.size then v
  else if arr.length = 0 then v
  else
    let new_size := v.size + arr.length
    if new_size > v.capacity then
      let g := VECTOR_GROW_CAPACITY v.capacity
      let new_capacity := if new_size < g then g else new_size
      if allocOk then
        { v with capacity := new_capacity,
                 data := v.data.take pos ++ arr ++ v.data.drop pos,
                 size := new_size }
      else v
    else
      { v with data := v.data.take pos ++ arr ++ v.data.drop pos,
               size := new_size }

/-- The `while (new_capacity < new_size) new_capacity = new_capacity * 2;`
loop of the private bulk-insert helpers.  The C code only enters it with
`cap != 0` (a zero capacity would loop forever); the `cap = 0` guard here
only serves termination and is never reached from the call sites. -/
def growDouble (cap target : Nat) : Nat :=
  if cap = 0 then 0
  else if cap < target then growDouble (cap * 2) target
  else cap
termination_by target - cap
decreasing_by simp_wf; omega

/-- `private_vector_push_back_args_inline`: returns `-1` (vector untouched)
when not initialized or when the single bulk `realloc` fails; computes the
bulk capacity (`max(count, 4)` from 0, else doubling until it covers
`size + count`), `memcpy`s all elements after the live prefix and adds
`count` to `size`, returning `0`. -/
def private_vector_push_back_args_inline (allocOk : Bool) (v : Vec α)
    (elements : List α) : Int × Vec α :=
  if v.magic ≠ MAGIC_INIT then (-1, v)
  else
    let new_size := v.size + elements.length
    if new_size > v.capacity then
      let new_capacity :=
        if v.capacity = 0 then (if elements.length > 4 then elements.length else 4)
        else growDouble v.capacity new_size
      if allocOk then
        (0, { v with capacity := new_capacity,
                     data := v.data ++ elements, size := new_size })
      else (-1, v)
    else (0, { v with data := v.data ++ elements, size := new_size })

/-- `private_vector_insert_args_inline`: returns `-1` (vector untouched)
when not initialized, when `index > size`, or when the single bulk `realloc`
fails; computes the bulk capacity exactly as the push-back helper,
`memmove`s the suffix right by `count`, `memcpy`s the elements into
`[index, index + count)`, sets `size`, returns `0`. -/
def private_vector_insert_args_inline (allocOk : Bool) (v : Vec α)
    (index : Nat) (elements : List α) : Int × Vec α :=
  if v.magic ≠ MAGIC_INIT then (-1, v)
  else if index > v.size then (-1, v)
  else
    let new_size := v.size + elements.length
    if new_size > v.capacity then
      let new_capacity :=
        if v.capacity = 0 then (if elements.length > 4 then elements.length else 4)
        else growDouble v.capacity new_size
      if allocOk then
        (0, { v with capacity := new_capacity,
                     data := v.data.take index ++ elements ++ v.data.drop index,
                     size := new_size })
      else (-1, v)
    else
      (0, { v with data := v.data.take index ++ elements ++ v.data.drop index,
                   size := new_size })

/-- `vector_swap`: error-return (both untouched) when either vector is not
initialized; otherwise exchanges `data`, `size` and `capacity`, leaving each
vector's own `magic` in place.  (The `sizeof` element check always passes
here since both sides share the element type.) -/
def vector_swap (v1 v2 : Vec α) : Vec α × Vec α :=
  if v1.magic ≠ MAGIC_INIT then (v1, v2)
  else if v2.magic ≠ MAGIC_INIT then (v1, v2)
  else ({ data := v2.data, size := v2.size, capacity := v2.capacity, magic := v1.magic },
        { data := v1.data, size := v1.size, capacity := v1.capacity, magic := v2.magic })

/-- `vector_at`: the checked-access ternary — yields `data[index]` when the
magic is `VECTOR_MAGIC_INIT` and `index < size`, and otherwise calls
`abort()`, modelled as `none`. -/
def vector_at (v : Vec α) (index : Nat) : Option α :=
  if v.magic = MAGIC_INIT ∧ index < v.size then v.data.get? index else none

/-- The trailing `for (; i < size; ++i)` remainder loop shared by
`vector_find` and `vector_find_custom`, scanning the live prefix (whose
length is the C loop bound `size`); `p` is the element test. -/
def findTail [Inhabited α] (p : α → Bool) (l : List α) (i : Nat) : Int :=
  if h : i < l.length then
    if p (l.getD i default) then (i : Int) else findTail p l (i + 1)
  else -1
termination_by l.length - i
decreasing_by simp_wf; omega

/-- The 4-way-unrolled `for (; i + 3 < size; i += 4)` loop shared by
`vector_find` and `vector_find_custom`, falling through into the remainder
loop at the exit index. -/
def findQuad [Inhabited α] (p : α → Bool) (l : List α) (i : Nat) : Int :=
  if i + 3 < l.length then
    if p (l.getD i default) then (i : Int)
    else if p (l.getD (i + 1) default) then (i : Int) + 1
    else if p (l.getD (i + 2) default) then (i : Int) + 2
    else if p (l.getD (i + 3) default) then (i : Int) + 3
    else findQuad p l (i + 4)
  else findTail p l i
termination_by l.length - i
decreasing_by simp_wf; omega

/-- `vector_find`: `-1` (after the diagnostic) when not initialized;
otherwise the unrolled scan for the first element equal to `value` over
`buffer[0 .. size)`. -/
def vector_find [DecidableEq α] [Inhabited α] (v : Vec α) (value : α) : Int :=
  if v.magic = MAGIC_INIT then
    findQuad (fun x => x = value) (v.data.take v.size) 0
  else -1

/-- `vector_find_custom`: `-1` (after the diagnostic) when not initialized;
otherwise the same unrolled scan with `cmp_func(element, value)` as the
test. -/
def vector_find_custom [Inhabited α] (v : Vec α) (value : α)
    (cmp_func : α → α → Bool) : Int :=
  if v.magic = MAGIC_INIT then
    findQuad (fun x => cmp_func x value) (v.data.take v.size) 0
  else -1

/-- `k` sequential single-element calls `insert(pos + i, v_i)` — the
reference behaviour the spec compares bulk insertion against. -/
def insertSeq (allocOk : Bool) (v : Vec α) (pos : Nat) : List α → Vec α
  | [] => v
  | x :: rest => insertSeq allocOk (vector_insert allocOk v pos x) (pos + 1) rest

/-- A plain structural left-to-right scan reporting the index (offset by
`i`) of the first element satisfying `p`, or `-1`; the specification the
unrolled scan is measured against. -/
def plainFindFrom (p : α → Bool) : List α → Nat → Int
  | [], _ => -1
  | x :: xs, i => if p x then (i : Int) else plainFindFrom p xs (i + 1)

/-! ## Helper lemmas -/

/-- The remainder loop is the plain structural scan over the unscanned
suffix. -/
theorem findTail_eq_plain [Inhabited α] (p : α → Bool) (l : List α) (i : Nat) :
    findTail p l i = plainFindFrom p (l.drop i) i := by
  by_cases h : i < l.length
  · have hd : l.drop i = l.getD i default :: l.drop (i + 1) := by
      rw [List.drop_eq_getElem_cons h, List.getD_eq_getElem l default h]
    rw [findTail, dif_pos h, hd]
    simp only [plainFindFrom]
    by_cases hp : p (l.getD i default)
    · rw [if_pos hp, if_pos hp]
    · rw [if_neg hp, if_neg hp]
      exact findTail_eq_plain p l (i + 1)
  · rw [findTail, dif_neg h, List.drop_eq_nil_of_le (Nat.le_of_not_lt h)]
    rfl
termination_by l.length - i
decreasing_by simp_wf; omega

/-- The 4-way unrolled loop followed by the remainder loop computes exactly
what the remainder loop alone computes from the same start index. -/
theorem findQuad_eq_findTail [Inhabited α] (p : α → Bool) (l : List α) (i : Nat) :
    findQuad p l i = findTail p l i := by
  rw [findQuad]
  by_cases h : i + 3 < l.length
  · rw [if_pos h]
    by_cases h0 : p (l.getD i default)
    · rw [if_pos h0, findTail, dif_pos (show i < l.length by omega), if_pos h0]
    · have t0 : findTail p l i = findTail p l (i + 1) := by
        rw [findTail, dif_pos (show i < l.length by omega), if_neg h0]
      rw [if_neg h0, t0]
      by_cases h1 : p (l.getD (i + 1) default)
      · rw [if_pos h1, findTail, dif_pos (show i + 1 < l.length by omega), if_pos h1]
        omega
      · have t1 : findTail p l (i + 1) = findTail p l (i + 1 + 1) := by
          rw [findTail, dif_pos (show i + 1 < l.length by omega), if_neg h1]
        rw [if_neg h1, t1]
        by_cases h2 : p (l.getD (i + 2) default)
        · rw [if_pos h2, findTail, dif_pos (show i + 1 + 1 < l.length by omega)]
          rw [show l.getD (i + 1 + 1) default = l.getD (i + 2) default by rfl, if_pos h2]
          omega
        · have t2 : findTail p l (i + 1 + 1) = findTail p l (i + 1 + 1 + 1) := by
            rw [findTail, dif_pos (show i + 1 + 1 < l.length by omega)]
            rw [show l.getD (i + 1 + 1) default = l.getD (i + 2) default by rfl, if_neg h2]
          rw [if_neg h2, t2]
          by_cases h3 : p (l.getD (i + 3) default)
          · rw [if_pos h3, findTail, dif_pos (show i + 1 + 1 + 1 < l.length by omega)]
            rw [show l.getD (i + 1 + 1 + 1) default = l.getD (i + 3) default by rfl, if_pos h3]
            omega
          · have t3 : findTail p l (i + 1 + 1 + 1) = findTail p l (i + 4) := by
              rw [findTail, dif_pos (show i + 1 + 1 + 1 < l.length by omega)]
              rw [show l.getD (i + 1 + 1 + 1) default = l.getD (i + 3) default by rfl, if_neg h3]
            rw [if_neg h3, t3]
            exact findQuad_eq_findTail p l (i + 4)
  · rw [if_neg h]
termination_by l.length - i
decreasing_by simp_wf; omega

/-- Specification of the plain scan: it returns `-1` exactly when no element
satisfies `p`, and otherwise `i` plus the offset of the first satisfying
element. -/
theorem plainFindFrom_spec [Inhabited α] (p : α → Bool) (l : List α) (i : Nat) :
    (plainFindFrom p l i = -1 ∧ ∀ x ∈ l, p x = false)
    ∨ (∃ j, j < l.length ∧ plainFindFrom p l i = ((i + j : Nat) : Int)
        ∧ p (l.getD j default) = true ∧ ∀ m, m < j → p (l.getD m default) = false) := by
  induction l generalizing i with
  | nil => exact Or.inl ⟨rfl, by simp⟩
  | cons x xs ih =>
    by_cases hp : p x
    · refine Or.inr ⟨0, by simp, ?_, by simpa using hp, by omega⟩
      simp [plainFindFrom, hp]
    · rcases ih (i + 1) with ⟨h1, h2⟩ | ⟨j, hj, heq, hpj, hmin⟩
      · refine Or.inl ⟨by simp [plainFindFrom, hp, h1], ?_⟩
        intro y hy
        rcases List.mem_cons.mp hy with rfl | hy
        · simpa using hp
        · exact h2 y hy
      · refine Or.inr ⟨j + 1, by simpa using Nat.succ_lt_succ hj, ?_, by simpa using hpj, ?_⟩
        · have : plainFindFrom p (x :: xs) i = plainFindFrom p xs (i + 1) := by
            simp [plainFindFrom, hp]
          rw [this, heq]
          congr 1
          omega
        · intro m hm
          match m with
          | 0 => simpa using hp
          | m + 1 => simpa using hmin m (by omega)

/-- Splitting a list around an inserted element: taking one past the insert
point and dropping one past it recovers the two original halves. -/
theorem cons_block_take_drop (A B : List α) (x : α) (rest : List α) :
    (A ++ x :: B).take (A.length + 1) ++ rest ++ (A ++ x :: B).drop (A.length + 1)
      = A ++ (x :: rest) ++ B := by
  rw [List.take_append_eq_append_take, List.drop_append_eq_append_drop,
      List.take_of_length_le (Nat.le_succ _), List.drop_eq_nil_of_le (Nat.le_succ _),
      Nat.add_sub_cancel_left]
  simp

/-- Effect of a successful single-element insert at a valid position on the
live prefix, the size and the magic. -/
theorem vector_insert_true_fields (v : Vec α) (pos : Nat) (x : α)
    (hm : v.magic = MAGIC_INIT) (hp : pos ≤ v.size) :
    (vector_insert true v pos x).data = v.data.take pos ++ x :: v.data.drop pos
    ∧ (vector_insert true v pos x).size = v.size + 1
    ∧ (vector_insert true v pos x).magic = MAGIC_INIT := by
  unfold vector_insert
  rw [if_neg (not_not_intro hm), if_neg (by omega)]
  by_cases hc : v.size ≥ v.capacity
  · rw [if_pos hc, if_pos rfl]
    exact ⟨rfl, rfl, hm⟩
  · rw [if_neg hc]
    exact ⟨rfl, rfl, hm⟩

/-- Effect of the sequence of `k` single-element inserts
`insert(pos + i, v_i)` on a well-formed active vector. -/
theorem insertSeq_fields (vals : List α) : ∀ (v : Vec α) (pos : Nat),
    v.magic = MAGIC_INIT → v.size = v.data.length → pos ≤ v.size →
    (insertSeq true v pos vals).data = v.data.take pos ++ vals ++ v.data.drop pos
    ∧ (insertSeq true v pos vals).size = v.size + vals.length
    ∧ (insertSeq true v pos vals).magic = MAGIC_INIT := by
  induction vals with
  | nil =>
    intro v pos hm hwf hp
    refine ⟨?_, rfl, hm⟩
    show v.data = v.data.take pos ++ [] ++ v.data.drop pos
    rw [List.append_nil, List.take_append_drop]
  | cons x rest ih =>
    intro v pos hm hwf hp
    obtain ⟨hd, hs, hmg⟩ := vector_insert_true_fields v pos x hm hp
    have hlen : (v.data.take pos).length = pos := by
      simp [List.length_take]
      omega
    have hwf' : (vector_insert true v pos x).size
        = (vector_insert true v pos x).data.length := by
      rw [hd, hs]
      simp [List.length_take, List.length_drop]
      omega
    have hp' : pos + 1 ≤ (vector_insert true v pos x).size := by
      rw [hs]
      omega
    obtain ⟨ihd, ihs, ihm⟩ := ih (vector_insert true v pos x) (pos + 1) hmg hwf' hp'
    have step : insertSeq true v pos (x :: rest)
        = insertSeq true (vector_insert true v pos x) (pos + 1) rest := rfl
    refine ⟨?_, ?_, step ▸ ihm⟩
    · rw [step, ihd, hd, show pos + 1 = (v.data.take pos).length + 1 by rw [hlen]]
      exact cons_block_take_drop _ _ _ _
    · rw [step, ihs, hs, List.length_cons]
      omega

/-- Effect of a successful bulk `insert_args` at a valid position. -/
theorem insert_args_true_fields (v : Vec α) (pos : Nat) (vals : List α)
    (hm : v.magic = MAGIC_INIT) (hwf : v.size = v.data.length) (hp : pos ≤ v.size) :
    (private_vector_insert_args_inline true v pos vals).1 = 0
    ∧ (private_vector_insert_args_inline true v pos vals).2.data
        = v.data.take pos ++ vals ++ v.data.drop pos
    ∧ (private_vector_insert_args_inline true v pos vals).2.size
        = v.size + vals.length := by
  simp only [private_vector_insert_args_inline]
  rw [if_neg (not_not_intro hm), if_neg (by omega)]
  by_cases hc : v.size + vals.length > v.capacity
  · rw [if_pos hc, if_pos trivial]
    exact ⟨rfl, rfl, rfl⟩
  · rw [if_neg hc]
    exact ⟨rfl, rfl, rfl⟩

/-- Effect of a successful `vector_insert_range` at a valid position: the
same prefix/new/suffix decomposition (a zero-count call leaves the vector
as-is, which the decomposition also describes). -/
theorem insert_range_true_fields (v : Vec α) (pos : Nat) (vals : List α)
    (hm : v.magic = MAGIC_INIT) (hwf : v.size = v.data.length) (hp : pos ≤ v.size) :
    (vector_insert_range true v pos vals).data
        = v.data.take pos ++ vals ++ v.data.drop pos
    ∧ (vector_insert_range true v pos vals).size = v.size + vals.length := by
  simp only [vector_insert_range]
  rw [if_neg (not_not_intro hm), if_neg (by omega)]
  by_cases h0 : vals.length = 0
  · rw [if_pos h0]
    rw [List.eq_nil_of_length_eq_zero h0]
    constructor
    · show v.data = v.data.take pos ++ [] ++ v.data.drop pos
      rw [List.append_nil, List.take_append_drop]
    · rw [List.eq_nil_of_length_eq_zero h0] at h0 ⊢
      omega
  · rw [if_neg h0]
    by_cases hc : v.size + vals.length > v.capacity
    · rw [if_pos hc, if_pos trivial]
      exact ⟨rfl, rfl⟩
    · rw [if_neg hc]
      exact ⟨rfl, rfl⟩

/-! ## Claim theorems -/

/-- C1: the code breaks the `length <= capacity` invariant when an internal
reallocation fails.  On the freshly initialized empty vector (where
`0 = length <= capacity = 0` holds), `vector_resize` to 5 with the
`realloc` inside its `vector_reserve` failing still sets `size = 5` while
`capacity` stays 0: the reserve macro's failure `break` only exits the
reserve's own `do/while`, and `vector_resize` then writes the fill values
and the new size unconditionally. -/
theorem resize_alloc_failure_breaks_invariant :
    (vector_init (⟨[], 0, 0, 0⟩ : Vec Int)).size ≤ (vector_init (⟨[], 0, 0, 0⟩ : Vec Int)).capacity
    ∧ (vector_resize false (vector_init (⟨[], 0, 0, 0⟩ : Vec Int)) 5 7).size = 5
    ∧ (vector_resize false (vector_init (⟨[], 0, 0, 0⟩ : Vec Int)) 5 7).capacity = 0 := by
  decide

/-- C2 counterexample: capacity 3 is reachable (three appends, then
`shrink_to_fit`), and growing from it on the next append chooses capacity
`VECTOR_GROW_CAPACITY 3 = 4`, not `max(4, 3*2) = 6` as the claim states. -/
theorem grow_policy_counterexample :
    (vector_shrink_to_fit true (vector_push_back true (vector_push_back true
        (vector_push_back true (vector_init (⟨[], 0, 0, 0⟩ : Vec Int)) 5) 12) 13)).capacity = 3
    ∧ (vector_push_back true (vector_shrink_to_fit true (vector_push_back true
        (vector_push_back true (vector_push_back true
          (vector_init (⟨[], 0, 0, 0⟩ : Vec Int)) 5) 12) 13)) 9).capacity = 4
    ∧ VECTOR_GROW_CAPACITY 3 = 4
    ∧ max 4 (3 * 2) = 6 := by
  decide

/-- C2 (amended): when a single-element append or insert must grow a full
Active container of capacity `c`, the chosen capacity is `4` when `c < 4`
and `c * 2` otherwise — this agrees with `max(4, c*2)` everywhere except
`c = 3` (reachable via `shrink_to_fit`), where the code chooses 4. -/
theorem grow_policy_amended (v : Vec α) (x : α)
    (hm : v.magic = MAGIC_INIT) (hfull : v.size ≥ v.capacity) :
    (vector_push_back true v x).capacity = (if v.capacity < 4 then 4 else v.capacity * 2)
    ∧ (vector_insert true v 0 x).capacity = (if v.capacity < 4 then 4 else v.capacity * 2)
    ∧ VECTOR_GROW_CAPACITY v.capacity = (if v.capacity < 4 then 4 else v.capacity * 2) := by
  refine ⟨?_, ?_, rfl⟩
  · unfold vector_push_back
    rw [if_neg (not_not_intro hm), if_pos hfull, if_pos rfl]
    rfl
  · unfold vector_insert
    rw [if_neg (not_not_intro hm), if_neg (by omega), if_pos hfull, if_pos rfl]
    rfl

/-- Witness for C2 (amended) at the freshly stamped empty vector. -/
theorem grow_policy_amended_witness :
    (vector_push_back true (⟨[], 0, 0, MAGIC_INIT⟩ : Vec Int) 7).capacity
        = (if (0 : Nat) < 4 then 4 else 0 * 2)
    ∧ (vector_insert true (⟨[], 0, 0, MAGIC_INIT⟩ : Vec Int) 0 7).capacity
        = (if (0 : Nat) < 4 then 4 else 0 * 2)
    ∧ VECTOR_GROW_CAPACITY 0 = (if (0 : Nat) < 4 then 4 else 0 * 2) :=
  grow_policy_amended (⟨[], 0, 0, MAGIC_INIT⟩ : Vec Int) 7 rfl (Nat.le_refl 0)

/-- C4: on a well-formed Active container, `vector_find` returns the
smallest index whose element equals the searched value and `-1` when no
element does — the 4-way unrolled scan (whatever the length: 0, 1, 3, 4,
5, 8, 9, ...) behaves exactly as a plain left-to-right linear scan. -/
theorem find_first_index_spec [DecidableEq α] [Inhabited α] (v : Vec α) (x : α)
    (hm : v.magic = MAGIC_INIT) (hwf : v.size = v.data.length) :
    (vector_find v x = -1 ∧ ∀ y ∈ v.data, y ≠ x)
    ∨ (∃ i, i < v.size ∧ vector_find v x = (i : Int)
        ∧ v.data.getD i default = x
        ∧ ∀ j, j < i → v.data.getD j default ≠ x) := by
  have htake : v.data.take v.size = v.data := List.take_of_length_le (by omega)
  have hev : vector_find v x = plainFindFrom (fun y => decide (y = x)) v.data 0 := by
    unfold vector_find
    rw [if_pos hm, htake, findQuad_eq_findTail, findTail_eq_plain, List.drop_zero]
  rcases plainFindFrom_spec (fun y => decide (y = x)) v.data 0 with
    ⟨h1, h2⟩ | ⟨j, hj, heq, hpj, hmin⟩
  · refine Or.inl ⟨by rw [hev, h1], ?_⟩
    intro y hy
    simpa using h2 y hy
  · refine Or.inr ⟨j, by omega, ?_, by simpa using hpj, ?_⟩
    · rw [hev, heq]
      norm_num
    · intro m hm'
      simpa using hmin m hm'

/-- Witness for C4 on `[5, 12, 13, 12]` searching 12 (found at index 1). -/
theorem find_first_index_spec_witness :
    (vector_find (⟨[5, 12, 13, 12], 4, 4, MAGIC_INIT⟩ : Vec Int) 12 = -1
      ∧ ∀ y ∈ (⟨[5, 12, 13, 12], 4, 4, MAGIC_INIT⟩ : Vec Int).data, y ≠ 12)
    ∨ (∃ i, i < (⟨[5, 12, 13, 12], 4, 4, MAGIC_INIT⟩ : Vec Int).size
        ∧ vector_find (⟨[5, 12, 13, 12], 4, 4, MAGIC_INIT⟩ : Vec Int) 12 = (i : Int)
        ∧ (⟨[5, 12, 13, 12], 4, 4, MAGIC_INIT⟩ : Vec Int).data.getD i default = 12
        ∧ ∀ j, j < i → (⟨[5, 12, 13, 12], 4, 4, MAGIC_INIT⟩ : Vec Int).data.getD j default ≠ 12) :=
  find_first_index_spec (⟨[5, 12, 13, 12], 4, 4, MAGIC_INIT⟩ : Vec Int) 12 rfl rfl

/-- C5: inserting `value` at `position ≤ L` into a well-formed Active
container of length `L`, with the reallocation succeeding, yields length
`L + 1`, `value` at `position`, the original prefix `[0, position)`
unchanged and the original suffix shifted to `[position+1, L+1)`. -/
theorem insert_single_spec (v : Vec α) (pos : Nat) (x : α)
    (hm : v.magic = MAGIC_INIT) (hwf : v.size = v.data.length) (hp : pos ≤ v.size) :
    (vector_insert true v pos x).size = v.size + 1
    ∧ (vector_insert true v pos x).data.get? pos = some x
    ∧ (vector_insert true v pos x).data.take pos = v.data.take pos
    ∧ (vector_insert true v pos x).data.drop (pos + 1) = v.data.drop pos := by
  obtain ⟨hd, hs, _⟩ := vector_insert_true_fields v pos x hm hp
  have hlen : (v.data.take pos).length = pos := by
    simp [List.length_take]
    omega
  refine ⟨hs, ?_, ?_, ?_⟩
  · rw [hd, List.get?_append_right (le_of_eq hlen)]
    simp [hlen]
  · rw [hd, List.take_append_eq_append_take, hlen, Nat.sub_self, List.take_zero,
        List.append_nil, List.take_take]
    simp
  · rw [hd, show pos + 1 = (v.data.take pos).length + 1 by rw [hlen],
        List.drop_append_eq_append_drop, List.drop_eq_nil_of_le (Nat.le_succ _),
        Nat.add_sub_cancel_left]
    simp

/-- Witness for C5: inserting 9 at position 1 of `[1, 2, 3]`. -/
theorem insert_single_spec_witness :
    (vector_insert true (⟨[1, 2, 3], 3, 4, MAGIC_INIT⟩ : Vec Int) 1 9).size = 3 + 1
    ∧ (vector_insert true (⟨[1, 2, 3], 3, 4, MAGIC_INIT⟩ : Vec Int) 1 9).data.get? 1 = some 9
    ∧ (vector_insert true (⟨[1, 2, 3], 3, 4, MAGIC_INIT⟩ : Vec Int) 1 9).data.take 1
        = ([1, 2, 3] : List Int).take 1
    ∧ (vector_insert true (⟨[1, 2, 3], 3, 4, MAGIC_INIT⟩ : Vec Int) 1 9).data.drop (1 + 1)
        = ([1, 2, 3] : List Int).drop 1 :=
  insert_single_spec (⟨[1, 2, 3], 3, 4, MAGIC_INIT⟩ : Vec Int) 1 9 rfl rfl (by decide)

/-- C7: checked access returns the element precisely when the container is
Active and the index is within the length; in every other case the abort
branch (modelled as `none`) is taken and no value is returned. -/
theorem at_checked_access_spec (v : Vec α) (i : Nat) (hwf : v.size = v.data.length) :
    ((v.magic = MAGIC_INIT ∧ i < v.size) →
        vector_at v i = v.data.get? i ∧ (vector_at v i).isSome = true)
    ∧ (¬(v.magic = MAGIC_INIT ∧ i < v.size) → vector_at v i = none) := by
  constructor
  · intro h
    unfold vector_at
    rw [if_pos h]
    refine ⟨rfl, ?_⟩
    rw [List.get?_eq_get (by omega)]
    rfl
  · intro h
    unfold vector_at
    rw [if_neg h]

/-- Witness for C7 on the one-element Active vector `[7]` at index 0. -/
theorem at_checked_access_spec_witness :
    (((⟨[7], 1, 1, MAGIC_INIT⟩ : Vec Int).magic = MAGIC_INIT
        ∧ 0 < (⟨[7], 1, 1, MAGIC_INIT⟩ : Vec Int).size) →
      vector_at (⟨[7], 1, 1, MAGIC_INIT⟩ : Vec Int) 0
          = (⟨[7], 1, 1, MAGIC_INIT⟩ : Vec Int).data.get? 0
        ∧ (vector_at (⟨[7], 1, 1, MAGIC_INIT⟩ : Vec Int) 0).isSome = true)
    ∧ (¬((⟨[7], 1, 1, MAGIC_INIT⟩ : Vec Int).magic = MAGIC_INIT
        ∧ 0 < (⟨[7], 1, 1, MAGIC_INIT⟩ : Vec Int).size) →
      vector_at (⟨[7], 1, 1, MAGIC_INIT⟩ : Vec Int) 0 = none) :=
  at_checked_access_spec (⟨[7], 1, 1, MAGIC_INIT⟩ : Vec Int) 0 rfl

/-- C3 counterexample: bulk insertion is not observably equivalent to the
sequential single-element inserts, because the resulting capacities (a
public observable via `vector_capacity`) differ: bulk-inserting
`[1,2,3,4,5]` at position 0 into a freshly initialized vector yields
capacity 5, while the 5 sequential `insert(0+i, v_i)` calls yield
capacity 8. -/
theorem bulk_insert_capacity_counterexample :
    (private_vector_insert_args_inline true (vector_init (⟨[], 0, 0, 0⟩ : Vec Int)) 0
        [1, 2, 3, 4, 5]).2.capacity = 5
    ∧ (insertSeq true (vector_init (⟨[], 0, 0, 0⟩ : Vec Int)) 0 [1, 2, 3, 4, 5]).capacity = 8 := by
  decide

/-- C3 (amended): for every well-formed Active container with
`length <= capacity`, every `pos ≤ length` and every values list, bulk
insertion (both the `insert_args` private helper and
`vector_insert_range`) produces the same length and the same element
sequence as the `k` sequential `insert(pos+i, v_i)` calls, and the `k = 0`
case leaves the container exactly unchanged; the resulting capacities,
however, may differ between the bulk and the sequential path. -/
theorem bulk_insert_seq_equiv (v : Vec α) (pos : Nat) (vals : List α)
    (hm : v.magic = MAGIC_INIT) (hwf : v.size = v.data.length) (hp : pos ≤ v.size)
    (hcap : v.size ≤ v.capacity) :
    ((private_vector_insert_args_inline true v pos vals).2.data
        = (insertSeq true v pos vals).data
      ∧ (private_vector_insert_args_inline true v pos vals).2.size
        = (insertSeq true v pos vals).size)
    ∧ ((vector_insert_range true v pos vals).data = (insertSeq true v pos vals).data
      ∧ (vector_insert_range true v pos vals).size = (insertSeq true v pos vals).size)
    ∧ (vals = [] → private_vector_insert_args_inline true v pos vals = (0, v)
        ∧ vector_insert_range true v pos vals = v
        ∧ insertSeq true v pos vals = v) := by
  obtain ⟨hsq_d, hsq_s, _⟩ := insertSeq_fields vals v pos hm hwf hp
  obtain ⟨_, ha_d, ha_s⟩ := insert_args_true_fields v pos vals hm hwf hp
  obtain ⟨hr_d, hr_s⟩ := insert_range_true_fields v pos vals hm hwf hp
  refine ⟨⟨by rw [ha_d, hsq_d], by rw [ha_s, hsq_s]⟩,
          ⟨by rw [hr_d, hsq_d], by rw [hr_s, hsq_s]⟩, ?_⟩
  rintro rfl
  refine ⟨?_, ?_, rfl⟩
  · simp only [private_vector_insert_args_inline]
    rw [if_neg (not_not_intro hm), if_neg (by omega)]
    rw [if_neg (show ¬(v.size + ([] : List α).length > v.capacity) by
      simp only [List.length_nil]
      omega)]
    rw [show v.data.take pos ++ ([] : List α) ++ v.data.drop pos = v.data by
      rw [List.append_nil, List.take_append_drop]]
    rfl
  · simp only [vector_insert_range]
    rw [if_neg (not_not_intro hm), if_neg (by omega)]
    rfl

/-- Witness for C3 (amended): inserting `[8, 9]` at position 1 of `[7]`. -/
theorem bulk_insert_seq_equiv_witness :
    ((private_vector_insert_args_inline true (⟨[7], 1, 4, MAGIC_INIT⟩ : Vec Int) 1 [8, 9]).2.data
        = (insertSeq true (⟨[7], 1, 4, MAGIC_INIT⟩ : Vec Int) 1 [8, 9]).data
      ∧ (private_vector_insert_args_inline true (⟨[7], 1, 4, MAGIC_INIT⟩ : Vec Int) 1 [8, 9]).2.size
        = (insertSeq true (⟨[7], 1, 4, MAGIC_INIT⟩ : Vec Int) 1 [8, 9]).size)
    ∧ ((vector_insert_range true (⟨[7], 1, 4, MAGIC_INIT⟩ : Vec Int) 1 [8, 9]).data
        = (insertSeq true (⟨[7], 1, 4, MAGIC_INIT⟩ : Vec Int) 1 [8, 9]).data
      ∧ (vector_insert_range true (⟨[7], 1, 4, MAGIC_INIT⟩ : Vec Int) 1 [8, 9]).size
        = (insertSeq true (⟨[7], 1, 4, MAGIC_INIT⟩ : Vec Int) 1 [8, 9]).size)
    ∧ (([8, 9] : List Int) = []
        → private_vector_insert_args_inline true (⟨[7], 1, 4, MAGIC_INIT⟩ : Vec Int) 1 [8, 9]
            = (0, (⟨[7], 1, 4, MAGIC_INIT⟩ : Vec Int))
        ∧ vector_insert_range true (⟨[7], 1, 4, MAGIC_INIT⟩ : Vec Int) 1 [8, 9]
            = (⟨[7], 1, 4, MAGIC_INIT⟩ : Vec Int)
        ∧ insertSeq true (⟨[7], 1, 4, MAGIC_INIT⟩ : Vec Int) 1 [8, 9]
            = (⟨[7], 1, 4, MAGIC_INIT⟩ : Vec Int)) :=
  bulk_insert_seq_equiv (⟨[7], 1, 4, MAGIC_INIT⟩ : Vec Int) 1 [8, 9] rfl rfl
    (by decide) (by decide)

/-- C6 counterexample: the Destroyed state is not terminal — `vector_init`
only guards against `magic == VECTOR_MAGIC_INIT`, so calling it on a
destroyed vector transitions the vector back out of the Destroyed state. -/
theorem destroyed_reinit_counterexample :
    (vector_destroy (vector_init (⟨[], 0, 0, 0⟩ : Vec Int))).magic = MAGIC_DESTROYED
    ∧ (vector_init (vector_destroy (vector_init (⟨[], 0, 0, 0⟩ : Vec Int)))).magic = MAGIC_INIT
    ∧ MAGIC_INIT ≠ MAGIC_DESTROYED := by
  decide

/-- C6 (amended): the Destroyed state is terminal for every public
operation except `init`: each of them (a second `destroy` included) only
reports an error and leaves the container's already-zeroed fields
unchanged, the searches return `-1`, and `is_valid` is false; `vector_init`
on a Destroyed container, however, reinitializes it to the Active empty
state. -/
theorem destroyed_state_ops [DecidableEq α] [Inhabited α] (v w : Vec α) (b : Bool)
    (x dv : α) (n pos : Nat) (vals : List α) (cmp : α → α → Bool)
    (hd : v.magic = MAGIC_DESTROYED) :
    vector_push_back b v x = v
    ∧ vector_emplace_back b v x = v
    ∧ vector_pop_back v = v
    ∧ vector_clear v = v
    ∧ vector_insert b v pos x = v
    ∧ vector_insert_range b v pos vals = v
    ∧ private_vector_insert_args_inline b v pos vals = (-1, v)
    ∧ private_vector_push_back_args_inline b v vals = (-1, v)
    ∧ vector_reserve b v n = v
    ∧ vector_resize b v n dv = v
    ∧ vector_shrink_to_fit b v = v
    ∧ vector_destroy v = v
    ∧ vector_swap v w = (v, w)
    ∧ vector_find v x = -1
    ∧ vector_find_custom v x cmp = -1
    ∧ vector_is_valid v = false
    ∧ vector_init v = { data := [], size := 0, capacity := 0, magic := MAGIC_INIT } := by
  have hne : v.magic ≠ MAGIC_INIT := by
    rw [hd]
    decide
  refine ⟨?_, ?_, ?_, ?_, ?_, ?_, ?_, ?_, ?_, ?_, ?_, ?_, ?_, ?_, ?_, ?_, ?_⟩
  · unfold vector_push_back
    rw [if_pos hne]
  · unfold vector_emplace_back
    rw [if_pos hne]
  · unfold vector_pop_back
    rw [if_pos hne]
  · unfold vector_clear
    rw [if_pos hne]
  · unfold vector_insert
    rw [if_pos hne]
  · unfold vector_insert_range
    rw [if_pos hne]
  · simp only [private_vector_insert_args_inline]
    rw [if_pos hne]
  · simp only [private_vector_push_back_args_inline]
    rw [if_pos hne]
  · unfold vector_reserve
    rw [if_pos hne]
  · unfold vector_resize
    rw [if_pos hne]
  · unfold vector_shrink_to_fit
    rw [if_pos hne]
  · unfold vector_destroy
    rw [if_pos hd]
  · unfold vector_swap
    rw [if_pos hne]
  · unfold vector_find
    rw [if_neg hne]
  · unfold vector_find_custom
    rw [if_neg hne]
  · simp [vector_is_valid, hne]
  · unfold vector_init
    rw [if_neg hne]

/-- Witness for C6 (amended) at a concrete destroyed vector. -/
theorem destroyed_state_ops_witness :
    vector_push_back false (⟨[], 0, 0, MAGIC_DESTROYED⟩ : Vec Int) 1
        = (⟨[], 0, 0, MAGIC_DESTROYED⟩ : Vec Int)
    ∧ vector_emplace_back false (⟨[], 0, 0, MAGIC_DESTROYED⟩ : Vec Int) 1
        = (⟨[], 0, 0, MAGIC_DESTROYED⟩ : Vec Int)
    ∧ vector_pop_back (⟨[], 0, 0, MAGIC_DESTROYED⟩ : Vec Int)
        = (⟨[], 0, 0, MAGIC_DESTROYED⟩ : Vec Int)
    ∧ vector_clear (⟨[], 0, 0, MAGIC_DESTROYED⟩ : Vec Int)
        = (⟨[], 0, 0, MAGIC_DESTROYED⟩ : Vec Int)
    ∧ vector_insert false (⟨[], 0, 0, MAGIC_DESTROYED⟩ : Vec Int) 0 1
        = (⟨[], 0, 0, MAGIC_DESTROYED⟩ : Vec Int)
    ∧ vector_insert_range false (⟨[], 0, 0, MAGIC_DESTROYED⟩ : Vec Int) 0 [4]
        = (⟨[], 0, 0, MAGIC_DESTROYED⟩ : Vec Int)
    ∧ private_vector_insert_args_inline false (⟨[], 0, 0, MAGIC_DESTROYED⟩ : Vec Int) 0 [4]
        = (-1, (⟨[], 0, 0, MAGIC_DESTROYED⟩ : Vec Int))
    ∧ private_vector_push_back_args_inline false (⟨[], 0, 0, MAGIC_DESTROYED⟩ : Vec Int) [4]
        = (-1, (⟨[], 0, 0, MAGIC_DESTROYED⟩ : Vec Int))
    ∧ vector_reserve false (⟨[], 0, 0, MAGIC_DESTROYED⟩ : Vec Int) 3
        = (⟨[], 0, 0, MAGIC_DESTROYED⟩ : Vec Int)
    ∧ vector_resize false (⟨[], 0, 0, MAGIC_DESTROYED⟩ : Vec Int) 3 2
        = (⟨[], 0, 0, MAGIC_DESTROYED⟩ : Vec Int)
    ∧ vector_shrink_to_fit false (⟨[], 0, 0, MAGIC_DESTROYED⟩ : Vec Int)
        = (⟨[], 0, 0, MAGIC_DESTROYED⟩ : Vec Int)
    ∧ vector_destroy (⟨[], 0, 0, MAGIC_DESTROYED⟩ : Vec Int)
        = (⟨[], 0, 0, MAGIC_DESTROYED⟩ : Vec Int)
    ∧ vector_swap (⟨[], 0, 0, MAGIC_DESTROYED⟩ : Vec Int) (⟨[], 0, 0, 0⟩ : Vec Int)
        = ((⟨[], 0, 0, MAGIC_DESTROYED⟩ : Vec Int), (⟨[], 0, 0, 0⟩ : Vec Int))
    ∧ vector_find (⟨[], 0, 0, MAGIC_DESTROYED⟩ : Vec Int) 1 = -1
    ∧ vector_find_custom (⟨[], 0, 0, MAGIC_DESTROYED⟩ : Vec Int) 1 (fun a b => decide (a = b)) = -1
    ∧ vector_is_valid (⟨[], 0, 0, MAGIC_DESTROYED⟩ : Vec Int) = false
    ∧ vector_init (⟨[], 0, 0, MAGIC_DESTROYED⟩ : Vec Int)
        = { data := [], size := 0, capacity := 0, magic := MAGIC_INIT } :=
  destroyed_state_ops (⟨[], 0, 0, MAGIC_DESTROYED⟩ : Vec Int) (⟨[], 0, 0, 0⟩ : Vec Int)
    false 1 2 3 0 [4] (fun a b => decide (a = b)) rfl

/-- C8: on an Active container, `reserve(n)` is a no-op when
`n <= capacity`; otherwise with the reallocation succeeding the new
capacity is exactly `max n 4` with buffer contents, length and state
untouched, and with the reallocation failing the container is exactly as
before the call. -/
theorem reserve_spec (v : Vec α) (n : Nat) (b : Bool) (hm : v.magic = MAGIC_INIT) :
    (n ≤ v.capacity → vector_reserve b v n = v)
    ∧ (v.capacity < n →
        (vector_reserve true v n).capacity = max n 4
        ∧ (vector_reserve true v n).data = v.data
        ∧ (vector_reserve true v n).size = v.size
        ∧ (vector_reserve true v n).magic = v.magic
        ∧ vector_reserve false v n = v) := by
  constructor
  · intro h
    unfold vector_reserve
    rw [if_neg (not_not_intro hm), if_pos h]
  · intro h
    refine ⟨?_, ?_, ?_, ?_, ?_⟩
    · unfold vector_reserve
      rw [if_neg (not_not_intro hm), if_neg (by omega)]
      show (if n < 4 then 4 else n) = max n 4
      split_ifs with h4 <;> omega
    · unfold vector_reserve
      rw [if_neg (not_not_intro hm), if_neg (by omega)]
      rfl
    · unfold vector_reserve
      rw [if_neg (not_not_intro hm), if_neg (by omega)]
      rfl
    · unfold vector_reserve
      rw [if_neg (not_not_intro hm), if_neg (by omega)]
      rfl
    · unfold vector_reserve
      rw [if_neg (not_not_intro hm), if_neg (by omega)]
      rfl

/-- Witness for C8 reserving 7 slots on an Active vector of capacity 4. -/
theorem reserve_spec_witness :
    (7 ≤ (⟨[5], 1, 4, MAGIC_INIT⟩ : Vec Int).capacity
        → vector_reserve true (⟨[5], 1, 4, MAGIC_INIT⟩ : Vec Int) 7
            = (⟨[5], 1, 4, MAGIC_INIT⟩ : Vec Int))
    ∧ ((⟨[5], 1, 4, MAGIC_INIT⟩ : Vec Int).capacity < 7 →
        (vector_reserve true (⟨[5], 1, 4, MAGIC_INIT⟩ : Vec Int) 7).capacity = max 7 4
        ∧ (vector_reserve true (⟨[5], 1, 4, MAGIC_INIT⟩ : Vec Int) 7).data
            = (⟨[5], 1, 4, MAGIC_INIT⟩ : Vec Int).data
        ∧ (vector_reserve true (⟨[5], 1, 4, MAGIC_INIT⟩ : Vec Int) 7).size
            = (⟨[5], 1, 4, MAGIC_INIT⟩ : Vec Int).size
        ∧ (vector_reserve true (⟨[5], 1, 4, MAGIC_INIT⟩ : Vec Int) 7).magic
            = (⟨[5], 1, 4, MAGIC_INIT⟩ : Vec Int).magic
        ∧ vector_reserve false (⟨[5], 1, 4, MAGIC_INIT⟩ : Vec Int) 7
            = (⟨[5], 1, 4, MAGIC_INIT⟩ : Vec Int)) :=
  reserve_spec (⟨[5], 1, 4, MAGIC_INIT⟩ : Vec Int) 7 true rfl

/-- C9: on a well-formed Active container, `shrink_to_fit` is a no-op when
`length == capacity`; when `length == 0` it releases the buffer and zeroes
the capacity; otherwise with the reallocation succeeding the capacity
becomes exactly `length` with the element sequence unchanged, and with the
reallocation failing the container is unchanged (old buffer retained). -/
theorem shrink_to_fit_spec (v : Vec α) (hm : v.magic = MAGIC_INIT)
    (hwf : v.size = v.data.length) :
    (v.size = v.capacity → ∀ b, vector_shrink_to_fit b v = v)
    ∧ (v.size = 0 → ∀ b, (vector_shrink_to_fit b v).capacity = 0
        ∧ (vector_shrink_to_fit b v).data = []
        ∧ (vector_shrink_to_fit b v).size = 0
        ∧ (vector_shrink_to_fit b v).magic = MAGIC_INIT)
    ∧ (v.size ≠ 0 → v.size ≠ v.capacity →
        (vector_shrink_to_fit true v).capacity = v.size
        ∧ (vector_shrink_to_fit true v).data = v.data
        ∧ (vector_shrink_to_fit true v).size = v.size
        ∧ (vector_shrink_to_fit true v).magic = v.magic
        ∧ vector_shrink_to_fit false v = v) := by
  refine ⟨?_, ?_, ?_⟩
  · intro h b
    unfold vector_shrink_to_fit
    rw [if_neg (not_not_intro hm), if_pos h]
  · intro h0 b
    have hnil : v.data = [] := List.eq_nil_of_length_eq_zero (by omega)
    by_cases hc : v.size = v.capacity
    · unfold vector_shrink_to_fit
      rw [if_neg (not_not_intro hm), if_pos hc]
      exact ⟨by omega, hnil, h0, hm⟩
    · unfold vector_shrink_to_fit
      rw [if_neg (not_not_intro hm), if_neg hc, if_pos h0]
      exact ⟨rfl, rfl, h0, hm⟩
  · intro h0 hc
    refine ⟨?_, ?_, ?_, ?_, ?_⟩ <;>
      · unfold vector_shrink_to_fit
        rw [if_neg (not_not_intro hm), if_neg hc, if_neg h0]
        rfl

/-- Witness for C9 on the Active vector `[5, 12]` with capacity 4. -/
theorem shrink_to_fit_spec_witness :
    ((⟨[5, 12], 2, 4, MAGIC_INIT⟩ : Vec Int).size = (⟨[5, 12], 2, 4, MAGIC_INIT⟩ : Vec Int).capacity
        → ∀ b, vector_shrink_to_fit b (⟨[5, 12], 2, 4, MAGIC_INIT⟩ : Vec Int)
            = (⟨[5, 12], 2, 4, MAGIC_INIT⟩ : Vec Int))
    ∧ ((⟨[5, 12], 2, 4, MAGIC_INIT⟩ : Vec Int).size = 0
        → ∀ b, (vector_shrink_to_fit b (⟨[5, 12], 2, 4, MAGIC_INIT⟩ : Vec Int)).capacity = 0
        ∧ (vector_shrink_to_fit b (⟨[5, 12], 2, 4, MAGIC_INIT⟩ : Vec Int)).data = []
        ∧ (vector_shrink_to_fit b (⟨[5, 12], 2, 4, MAGIC_INIT⟩ : Vec Int)).size = 0
        ∧ (vector_shrink_to_fit b (⟨[5, 12], 2, 4, MAGIC_INIT⟩ : Vec Int)).magic = MAGIC_INIT)
    ∧ ((⟨[5, 12], 2, 4, MAGIC_INIT⟩ : Vec Int).size ≠ 0
        → (⟨[5, 12], 2, 4, MAGIC_INIT⟩ : Vec Int).size ≠ (⟨[5, 12], 2, 4, MAGIC_INIT⟩ : Vec Int).capacity
        → (vector_shrink_to_fit true (⟨[5, 12], 2, 4, MAGIC_INIT⟩ : Vec Int)).capacity
            = (⟨[5, 12], 2, 4, MAGIC_INIT⟩ : Vec Int).size
        ∧ (vector_shrink_to_fit true (⟨[5, 12], 2, 4, MAGIC_INIT⟩ : Vec Int)).data
            = (⟨[5, 12], 2, 4, MAGIC_INIT⟩ : Vec Int).data
        ∧ (vector_shrink_to_fit true (⟨[5, 12], 2, 4, MAGIC_INIT⟩ : Vec Int)).size
            = (⟨[5, 12], 2, 4, MAGIC_INIT⟩ : Vec Int).size
        ∧ (vector_shrink_to_fit true (⟨[5, 12], 2, 4, MAGIC_INIT⟩ : Vec Int)).magic
            = (⟨[5, 12], 2, 4, MAGIC_INIT⟩ : Vec Int).magic
        ∧ vector_shrink_to_fit false (⟨[5, 12], 2, 4, MAGIC_INIT⟩ : Vec Int)
            = (⟨[5, 12], 2, 4, MAGIC_INIT⟩ : Vec Int)) :=
  shrink_to_fit_spec (⟨[5, 12], 2, 4, MAGIC_INIT⟩ : Vec Int) rfl rfl

/-- C10: on a non-Active container (Uninitialized or Destroyed), both
`find` and `find_custom` return `-1` after reporting the usage error —
the same value an Active container returns when the value is genuinely
absent (shown here on an Active empty container), so the two outcomes are
indistinguishable from the return value. -/
theorem find_invalid_returns_neg_one [DecidableEq α] [Inhabited α]
    (v w : Vec α) (x : α) (cmp : α → α → Bool)
    (hm : v.magic ≠ MAGIC_INIT) (hw : w.magic = MAGIC_INIT) (hw0 : w.size = 0) :
    vector_find v x = -1
    ∧ vector_find_custom v x cmp = -1
    ∧ vector_find w x = -1
    ∧ vector_find_custom w x cmp = -1 := by
  refine ⟨?_, ?_, ?_, ?_⟩
  · unfold vector_find
    rw [if_neg hm]
  · unfold vector_find_custom
    rw [if_neg hm]
  · unfold vector_find
    rw [if_pos hw, hw0, List.take_zero, findQuad, if_neg (by simp), findTail,
        dif_neg (by simp)]
  · unfold vector_find_custom
    rw [if_pos hw, hw0, List.take_zero, findQuad, if_neg (by simp), findTail,
        dif_neg (by simp)]

/-- Witness for C10 with an uninitialized vector (garbage magic 0) and an
Active empty vector. -/
theorem find_invalid_returns_neg_one_witness :
    vector_find (⟨[], 0, 0, 0⟩ : Vec Int) 5 = -1
    ∧ vector_find_custom (⟨[], 0, 0, 0⟩ : Vec Int) 5 (fun a b => decide (a = b)) = -1
    ∧ vector_find (⟨[], 0, 4, MAGIC_INIT⟩ : Vec Int) 5 = -1
    ∧ vector_find_custom (⟨[], 0, 4, MAGIC_INIT⟩ : Vec Int) 5 (fun a b => decide (a = b)) = -1 :=
  find_invalid_returns_neg_one (⟨[], 0, 0, 0⟩ : Vec Int) (⟨[], 0, 4, MAGIC_INIT⟩ : Vec Int)
    5 (fun a b => decide (a = b)) (by decide) rfl rfl

end CVector
